import Mathlib

/-!
Shallow embedding of `src/angular-api-provider.js` (the `app` namespace of the
angular-api-provider repository) and proofs about its endpoint configuration,
registration and request-dispatch behaviour.

JavaScript values are modelled by the inductive `JsVal`; JavaScript objects are
association lists from field names to values (insertion-ordered, as JS object
properties are); a thrown `TypeError` is modelled by `Except`; a settled promise
is modelled by the inductive `Promise`.  Object identity, where a claim is about
aliasing or in-place mutation, is modelled by an explicit heap of cells indexed
by natural-number addresses.
-/

namespace App

/-- A JavaScript value: undefined, null, number, string, object (an
insertion-ordered bag of named fields) or array. -/
inductive JsVal where
  | undefined : JsVal
  | null : JsVal
  | num : Int → JsVal
  | str : String → JsVal
  | obj : List (String × JsVal) → JsVal
  | arr : List JsVal → JsVal

/-- A plain JavaScript object: its own enumerable fields in insertion order. -/
abbrev JsObj := List (String × JsVal)

/-- A thrown JavaScript error.  The only error the embedded code can raise is a
TypeError (calling a value that is not a function). -/
inductive JsError where
  | typeError : JsError
deriving DecidableEq

/-- JavaScript property write on an association list: overwrite the value in
place when the key exists (keeping its position), append otherwise. -/
def setAssoc {α : Type} : List (String × α) → String → α → List (String × α)
  | [], k, v => [(k, v)]
  | (k', v') :: rest, k, v =>
      if k' = k then (k, v) :: rest else (k', v') :: setAssoc rest k v

/-- JavaScript property read on an association list. -/
def lookupAssoc {α : Type} : List (String × α) → String → Option α
  | [], _ => none
  | (k', v') :: rest, k => if k' = k then some v' else lookupAssoc rest k

/-- Reading a key just written returns the written value. -/
theorem lookupAssoc_setAssoc_self {α : Type} (l : List (String × α)) (k : String) (v : α) :
    lookupAssoc (setAssoc l k v) k = some v := by
  induction l with
  | nil => simp [setAssoc, lookupAssoc]
  | cons p rest ih =>
      by_cases h : p.1 = k
      · simp [setAssoc, lookupAssoc, h]
      · simp [setAssoc, lookupAssoc, h, ih]

/-- JavaScript `String.prototype.toUpperCase` on the ASCII strings appearing
here: upper-case every character. -/
def toUpperCase (s : String) : String :=
  ⟨s.data.map Char.toUpper⟩

/-- `angular.extend(dst, src)`: copy every own field of `src` onto `dst` in
order, overwriting existing fields. -/
def extendObj (dst src : JsObj) : JsObj :=
  src.foldl (fun acc kv => setAssoc acc kv.1 kv.2) dst

/-- The own fields a value contributes when used as an `angular.extend` source:
the fields of an object, nothing for primitives or undefined. -/
def fieldsOf : JsVal → JsObj
  | .obj fs => fs
  | _ => []

/-- Property read on a value (`v.k`): undefined when absent or not an object. -/
def getField (v : JsVal) (k : String) : JsVal :=
  match v with
  | .obj fs => (lookupAssoc fs k).getD .undefined
  | _ => .undefined

/-- Property write on a value (`v.k = w`), a no-op on non-objects. -/
def setField (v : JsVal) (k : String) (w : JsVal) : JsVal :=
  match v with
  | .obj fs => .obj (setAssoc fs k w)
  | _ => v

/-- `angular.isArray`. -/
def isArrayJs : JsVal → Bool
  | .arr _ => true
  | _ => false

/-! ## Promises and the transport

The underlying `$resource` action call is modelled by an abstract transport
function from `(actionName, params, data)` to the settled outcome of the
returned `$promise`.  `Promise.thenP` is `promise.then(cb)`: on a resolved
promise the callback runs and the derived promise resolves with the callback
return value (or rejects when the callback throws); a rejected promise passes
its rejection through. -/

/-- The settled outcome of a promise. -/
inductive Promise where
  | resolved : JsVal → Promise
  | rejected : JsVal → Promise

/-- `p.then(f)` where the callback may throw. -/
def Promise.thenP (p : Promise) (f : JsVal → Except JsVal JsVal) : Promise :=
  match p with
  | .resolved v =>
      match f v with
      | .ok w => .resolved w
      | .error e => .rejected e
  | .rejected e => .rejected e

/-- The `$resource` transport: per action, `(params, data)` to a settled
promise.  `none` stands for an undefined argument. -/
abbrev Transport := String → Option JsVal → Option JsVal → Promise

/-- The rejection value carried by a thrown TypeError. -/
def errVal : JsError → JsVal
  | .typeError => .str "TypeError"

/-! ## ActionSpec and addHttpAction (lines 83 to 96) -/

/-- One entry of the `actions` map: the object built by `addHttpAction` after
`angular.extend`.  A missing `isArray` key is falsy, hence `false` here; the
optional `model` key (only ever present when supplied through the options
argument) is kept as a reference to a factory, identified by a number, since
only its presence is ever consulted. -/
structure ActionSpec where
  method : String
  params : Option JsVal
  isArray : Bool
  model : Option Nat

/-- The options argument of `addHttpAction`: a partial record whose present
fields `angular.extend` copies over the base object, overwriting it. -/
structure ActionOptions where
  method : Option String
  params : Option (Option JsVal)
  isArray : Option Bool
  model : Option (Option Nat)

/-- No options supplied. -/
def noOptions : ActionOptions := ⟨none, none, none, none⟩

/-- `angular.extend({method: ..., params: ...}, options)` from line 91:
every field present in the options overwrites the base field. -/
def extendSpec (base : ActionSpec) (opts : ActionOptions) : ActionSpec :=
  { method := opts.method.getD base.method
    params := opts.params.getD base.params
    isArray := opts.isArray.getD base.isArray
    model := opts.model.getD base.model }

/-! ## ApiEndpointConfig (lines 33 to 96)

The builder methods `route` and `model` are prototype methods that store the
argument under the SAME name as the method itself (`this.route = route`), so
after the first call the own property shadows the prototype method and a second
call applies a string, which throws a TypeError.  The own properties are the
`routeOwn` and `modelOwn` fields; `none` means the own property is absent and a
call still reaches the prototype function. -/

/-- A model factory as registered with `config.model(...)`: what
`$injector.instantiate` produces (`base`), whether the produced model has an
`afterLoad` member, and the transformation `afterLoad` performs on its
receiver. -/
structure ModelDef where
  base : JsObj
  hasAfterLoad : Bool
  afterLoad : JsObj → JsObj

/-- The configuration object for an api endpoint. -/
structure ApiEndpointConfig where
  actions : List (String × ActionSpec)
  routeOwn : Option String
  modelOwn : Option ModelDef

/-- `addHttpAction(method, name, params, options)` (lines 90 to 96): store
under `name` the extend of `{method: method.toUpperCase(), params: params}`
with the options, overwriting any existing entry; return self. -/
def ApiEndpointConfig.addHttpAction (c : ApiEndpointConfig) (method name : String)
    (params : Option JsVal) (options : ActionOptions) : ApiEndpointConfig :=
  let spec := extendSpec ⟨toUpperCase method, params, false, none⟩ options
  { c with actions := setAssoc c.actions name spec }

/-- The `ApiEndpointConfig` constructor (lines 37 to 59): start with an empty
action map and add the five default actions, one `addHttpAction(method, alias)`
call per entry of the default-action table, in its insertion order. -/
def newApiEndpointConfig : ApiEndpointConfig :=
  let c0 : ApiEndpointConfig := ⟨[], none, none⟩
  let c1 := c0.addHttpAction "GET" "get" none noOptions
  let c2 := c1.addHttpAction "PUT" "update" none noOptions
  let c3 := c2.addHttpAction "POST" "save" none noOptions
  let c4 := c3.addHttpAction "PATCH" "patch" none noOptions
  c4.addHttpAction "DELETE" "remove" none noOptions

/-- `config.route(route)` (lines 67 to 70).  While the own property is absent
the prototype method runs: it stores the string under `this.route` and returns
`this`.  Once the own property holds the previously stored string, the call
applies a string and throws a TypeError. -/
def ApiEndpointConfig.route (c : ApiEndpointConfig) (r : String) :
    Except JsError ApiEndpointConfig :=
  match c.routeOwn with
  | none => .ok { c with routeOwn := some r }
  | some _ => .error .typeError

/-- `config.model(model)` (lines 78 to 81), with the same shadowing behaviour
as `route`. -/
def ApiEndpointConfig.model (c : ApiEndpointConfig) (m : ModelDef) :
    Except JsError ApiEndpointConfig :=
  match c.modelOwn with
  | none => .ok { c with modelOwn := some m }
  | some _ => .error .typeError

/-! ## ApiEndpoint construction (lines 111 to 146) -/

/-- The three request strategies an action member can be bound to. -/
inductive Strategy where
  | plainRequest : Strategy
  | readWithModel : Strategy
  | writeWithModel : Strategy
deriving DecidableEq

/-- The strategy chosen for one action at construction time (lines 133 to
142): `actionMethod` starts as the plain `request` and is replaced only when
the ACTION SPEC itself carries a truthy `model` field; the method is then
compared against GET and against PUT or POST. -/
def selectStrategy (a : ActionSpec) : Strategy :=
  match a.model with
  | none => .plainRequest
  | some _ =>
      if a.method = "GET" then .readWithModel
      else if a.method = "PUT" ∨ a.method = "POST" then .writeWithModel
      else .plainRequest

/-- An api endpoint: it keeps its configuration and, per action name, the
strategy the constructor bound into the same-named member (line 144,
`angular.bind(self, actionMethod, actionName)`). -/
structure ApiEndpoint where
  config : ApiEndpointConfig
  strategies : List (String × Strategy)

/-- The `ApiEndpoint` constructor: for every action of the configuration,
decide the strategy once and attach it under the action name.  (The
constructor also builds the `$resource` handle from the base route and the
route template; no claim consults that handle beyond the per-action calls
modelled by the transport.) -/
def mkApiEndpoint (_baseRoute : String) (cfg : ApiEndpointConfig) : ApiEndpoint :=
  { config := cfg
    strategies := cfg.actions.map (fun p => (p.1, selectStrategy p.2)) }

/-! ## The plain request and the read path (lines 149 to 195) -/

/-- `request(action, params, data)` (lines 171 to 173): forward everything to
the transport and hand back its promise. -/
def request (t : Transport) (action : String) (params data : Option JsVal) : Promise :=
  t action params data

/-- `instantiateModel(data)` (lines 154 to 160): instantiate the model factory
registered on the CONFIG (`this.config.model`), `angular.extend` the raw data
fields onto the instance, then call `model.afterLoad()` with no guard — under
JavaScript semantics the unguarded call throws a TypeError when the config has
no model factory or the instance has no `afterLoad` member. -/
def instantiateModel (cfgModel : Option ModelDef) (d : JsVal) : Except JsError JsObj :=
  match cfgModel with
  | none => .error .typeError
  | some md =>
      let m := extendObj md.base (fieldsOf d)
      if md.hasAfterLoad then .ok (md.afterLoad m) else .error .typeError

/-- `data.map(cb)` for a callback that may throw: elements are visited left to
right and the first thrown error aborts the map. -/
def mapExcept (f : JsVal → Except JsError JsObj) : List JsVal → Except JsError (List JsObj)
  | [] => .ok []
  | x :: xs =>
      match f x with
      | .error e => .error e
      | .ok y =>
          match mapExcept f xs with
          | .error e => .error e
          | .ok ys => .ok (y :: ys)

/-- The replacement value computed for `response.data` inside the callback of
`getRequestWithModel` (lines 191 to 193): map through `instantiateModel` when
the raw payload is an array, instantiate once otherwise. -/
def transformData (cfgModel : Option ModelDef) (data : JsVal) : Except JsError JsVal :=
  match data with
  | .arr elems => (mapExcept (instantiateModel cfgModel) elems).map (fun l => .arr (l.map .obj))
  | d => (instantiateModel cfgModel d).map .obj

/-- The anonymous success callback of `getRequestWithModel` (lines 190 to
194): assign the transformed payload into `response.data` IN PLACE and fall
off the end, returning undefined.  The result pairs the mutated response
object with the value the callback returns to the promise chain. -/
def getResponseCallback (cfgModel : Option ModelDef) (response : JsVal) :
    Except JsError (JsVal × JsVal) :=
  match transformData cfgModel (getField response "data") with
  | .ok d => .ok (setField response "data" d, JsVal.undefined)
  | .error e => .error e

/-- `getRequestWithModel(action, params)` (lines 184 to 195): perform the
plain request with no data argument, then chain the response callback. -/
def getRequestWithModel (t : Transport) (cfgModel : Option ModelDef)
    (action : String) (params : Option JsVal) : Promise :=
  (request t action params none).thenP
    (fun response =>
      match getResponseCallback cfgModel response with
      | .ok r => .ok r.2
      | .error e => .error (errVal e))

/-- A read-with-model action member as invoked by a caller with
`(params, data)`: the bound `getRequestWithModel` declares only
`(action, params)` (line 184), so the data argument finds no parameter to bind
to and is dropped. -/
def readActionCallable (t : Transport) (cfgModel : Option ModelDef)
    (action : String) (params _data : Option JsVal) : Promise :=
  getRequestWithModel t cfgModel action params

/-- A plain-request action member as invoked by a caller with
`(params, data)`: the bound `request` forwards both. -/
def plainActionCallable (t : Transport) (action : String)
    (params data : Option JsVal) : Promise :=
  request t action params data

/-! ## The write path over an explicit heap (lines 197 to 217)

`saveRequestWithModel` mutates objects in place (`angular.copy` allocates, the
`beforeSave` hook mutates its receiver), so the payload lives in a heap of
object cells addressed by naturals; the caller passes the payload by address
and the transport likewise receives the data by address. -/

/-- A heap of JavaScript object cells; the address of a cell is its index. -/
structure Heap where
  cells : List JsObj

/-- Read the cell at an address. -/
def Heap.get (h : Heap) (a : Nat) : JsObj :=
  (h.cells.get? a).getD []

/-- Overwrite the cell at an address. -/
def Heap.set (h : Heap) (a : Nat) (o : JsObj) : Heap :=
  ⟨h.cells.set a o⟩

/-- Allocate a fresh cell, returning the grown heap and the fresh address. -/
def Heap.alloc (h : Heap) (o : JsObj) : Heap × Nat :=
  (⟨h.cells ++ [o]⟩, h.cells.length)

/-- The transport as seen by the write path: the data argument is an object
reference (an address), `none` when undefined. -/
abbrev AddrTransport := String → Option JsVal → Option Nat → Promise

/-- `saveRequestWithModel(action, params, data)` (lines 207 to 217):
`angular.copy(data)` makes a deep copy of the payload into a fresh cell
(undefined stays undefined); `if (model && model.beforeSave)` the hook runs,
mutating only the copy (the `hasBeforeSave` flag says whether the copied
payload has the hook, and `hook` is the mutation `beforeSave` performs on its
receiver); finally the plain request is sent with the copy as its data.
Returns the heap after the call together with the promise. -/
def saveRequestWithModel (h : Heap) (t : AddrTransport) (action : String)
    (params : Option JsVal) (dataAddr : Option Nat) (hasBeforeSave : Bool)
    (hook : JsObj → JsObj) : Heap × Promise :=
  match dataAddr with
  | none => (h, t action params none)
  | some a =>
      let alloc := h.alloc (h.get a)
      let h1 := alloc.1
      let ca := alloc.2
      let h2 := if hasBeforeSave then h1.set ca (hook (h1.get ca)) else h1
      (h2, t action params (some ca))

/-! ## ApiProvider, the registry (lines 221 to 270)

`endpoint(name)` hands out references to configuration objects, so the
configurations live in an explicit heap of their own and a handle is an
address into it. -/

/-- A heap of `ApiEndpointConfig` objects; a handle is an index into it. -/
structure ConfigHeap where
  configs : List ApiEndpointConfig

/-- Dereference a config handle. -/
def ConfigHeap.getCfg (h : ConfigHeap) (id : Nat) : ApiEndpointConfig :=
  (h.configs.get? id).getD newApiEndpointConfig

/-- Mutate the config object behind a handle (a builder call performed through
that handle). -/
def ConfigHeap.mutate (h : ConfigHeap) (id : Nat)
    (f : ApiEndpointConfig → ApiEndpointConfig) : ConfigHeap :=
  ⟨h.configs.set id (f (h.getCfg id))⟩

/-- The provider state: the shared base route and the name-to-config map. -/
structure ApiProvider where
  baseRoute : String
  endpoints : List (String × Nat)

/-- `ApiProvider` constructor (lines 226 to 229). -/
def newApiProvider : ApiProvider :=
  ⟨"", []⟩

/-- `provider.endpoint(name)` (lines 246 to 250): allocate a NEW
`ApiEndpointConfig`, store its handle under `name` (overwriting any earlier
entry), and return the new handle. -/
def ApiProvider.endpoint (reg : ApiProvider) (h : ConfigHeap) (name : String) :
    ApiProvider × ConfigHeap × Nat :=
  let alloc := ⟨h.configs ++ [newApiEndpointConfig]⟩
  ({ reg with endpoints := setAssoc reg.endpoints name h.configs.length },
   alloc, h.configs.length)

/-! ## Concrete fixtures used by witnesses and counterexamples -/

/-- A model whose instances start empty, have `afterLoad`, and whose
`afterLoad` records its invocation by setting a `loaded` field. -/
def songModel : ModelDef :=
  ⟨[], true, fun o => setAssoc o "loaded" (.num 1)⟩

/-- A model whose instances lack the `afterLoad` member. -/
def bareModel : ModelDef :=
  ⟨[], false, fun o => o⟩

/-- The configuration the README builds:
`endpoint.route("songs/:id").model(app.Song)`. -/
def cfgSongs : ApiEndpointConfig :=
  (((newApiEndpointConfig.route "songs/:id").bind
      (fun c => c.model songModel)).toOption).getD newApiEndpointConfig

/-- A transport whose every action resolves with a response carrying the
payload `{id: 5}` in its data slot. -/
def sampleReadTransport : Transport :=
  fun _ _ _ => .resolved (.obj [("data", .obj [("id", .num 5)])])

/-! ## List and heap lemmas -/

theorem listGet_append_lt {α : Type} :
    ∀ (l l2 : List α) (n : Nat), n < l.length → (l ++ l2).get? n = l.get? n := by
  intro l
  induction l with
  | nil => intro l2 n h; simp at h
  | cons x xs ih =>
      intro l2 n h
      cases n with
      | zero => rfl
      | succ m =>
          simp only [List.cons_append, List.get?]
          exact ih l2 m (Nat.lt_of_succ_lt_succ h)

theorem listGet_append_self {α : Type} :
    ∀ (l : List α) (x : α), (l ++ [x]).get? l.length = some x := by
  intro l
  induction l with
  | nil => intro x; rfl
  | cons y ys ih => intro x; exact ih x

theorem listGet_set_ne {α : Type} :
    ∀ (l : List α) (i j : Nat) (x : α), i ≠ j → (l.set i x).get? j = l.get? j := by
  intro l
  induction l with
  | nil => intro i j x _; rfl
  | cons y ys ih =>
      intro i j x hij
      cases i with
      | zero =>
          cases j with
          | zero => exact absurd rfl hij
          | succ m => rfl
      | succ n =>
          cases j with
          | zero => rfl
          | succ m =>
              simp only [List.set, List.get?]
              exact ih n m x (fun h => hij (congrArg Nat.succ h))

theorem listGet_set_self {α : Type} :
    ∀ (l : List α) (i : Nat) (x : α), i < l.length → (l.set i x).get? i = some x := by
  intro l
  induction l with
  | nil => intro i x h; simp at h
  | cons y ys ih =>
      intro i x h
      cases i with
      | zero => rfl
      | succ n =>
          simp only [List.set, List.get?]
          exact ih n x (Nat.lt_of_succ_lt_succ h)

/-- Reading an untouched address after an allocation. -/
theorem Heap.get_alloc_old (h : Heap) (o : JsObj) (a : Nat) (ha : a < h.cells.length) :
    (h.alloc o).1.get a = h.get a := by
  simp only [Heap.alloc, Heap.get]
  rw [listGet_append_lt h.cells [o] a ha]

/-- Reading the freshly allocated cell. -/
theorem Heap.get_alloc_new (h : Heap) (o : JsObj) :
    (h.alloc o).1.get (h.alloc o).2 = o := by
  simp only [Heap.alloc, Heap.get]
  rw [listGet_append_self h.cells o]
  rfl

/-- Overwriting one cell leaves every other address unchanged. -/
theorem Heap.get_set_ne (h : Heap) (i j : Nat) (o : JsObj) (hij : i ≠ j) :
    (h.set i o).get j = h.get j := by
  simp only [Heap.set, Heap.get]
  rw [listGet_set_ne h.cells i j o hij]

/-- Reading a cell just overwritten. -/
theorem Heap.get_set_self (h : Heap) (i : Nat) (o : JsObj) (hi : i < h.cells.length) :
    (h.set i o).get i = o := by
  simp only [Heap.set, Heap.get]
  rw [listGet_set_self h.cells i o hi]
  rfl

/-- A throwing map whose callback always succeeds is an ordinary map. -/
theorem mapExcept_ok (f : JsVal → Except JsError JsObj) (g : JsVal → JsObj)
    (hf : ∀ x, f x = .ok (g x)) :
    ∀ l : List JsVal, mapExcept f l = .ok (l.map g) := by
  intro l
  induction l with
  | nil => rfl
  | cons x xs ih => simp [mapExcept, hf x, ih]

/-- What `instantiateModel` produces when the config has a model whose
instances carry `afterLoad`: the factory instance extended with the raw
fields, transformed by `afterLoad` exactly once. -/
theorem instantiateModel_ok (md : ModelDef) (hmd : md.hasAfterLoad = true) (d : JsVal) :
    instantiateModel (some md) d = .ok (md.afterLoad (extendObj md.base (fieldsOf d))) := by
  simp [instantiateModel, hmd]

/-! ## The claims -/

/-- C9: a freshly constructed `ApiEndpointConfig`, before any builder call,
holds exactly the five default actions get, update, save, patch, remove,
bound respectively to the HTTP methods GET, PUT, POST, PATCH, DELETE. -/
theorem default_actions_on_construction :
    newApiEndpointConfig.actions =
      [("get", ⟨"GET", none, false, none⟩),
       ("update", ⟨"PUT", none, false, none⟩),
       ("save", ⟨"POST", none, false, none⟩),
       ("patch", ⟨"PATCH", none, false, none⟩),
       ("remove", ⟨"DELETE", none, false, none⟩)] := rfl

/-- C1: the claim says an action of a config with a model factory set gets the
read-with-model strategy when its method is GET (write-with-model for PUT or
POST).  The code instead tests the ACTION SPEC field `action.model`, which the
`model()` builder never sets — the builder sets the CONFIG model that
`instantiateModel` reads — so for the README configuration (route and model
factory set on the config) every action, the GET one included, is bound to the
plain request strategy at construction, contradicting the constructor's own
comment that the choice depends on the model defined in the configuration. -/
theorem dispatch_ignores_config_model :
    cfgSongs.modelOwn.isSome = true ∧
    (mkApiEndpoint "my/app/api/" cfgSongs).strategies =
      [("get", .plainRequest), ("update", .plainRequest), ("save", .plainRequest),
       ("patch", .plainRequest), ("remove", .plainRequest)] :=
  ⟨rfl, rfl⟩

/-- C2 counterexample: calling `endpoint("x")` twice hands out handles to two
DIFFERENT config objects (addresses 0 and 1); performing the `route` builder
call through the first handle is not visible through the second, whose config
still has no route template. -/
theorem endpoint_twice_distinct_cex :
    (let r1 := newApiProvider.endpoint ⟨[]⟩ "x"
     let r2 := r1.1.endpoint r1.2.1 "x"
     r1.2.2 ≠ r2.2.2 ∧
     ((r2.2.1.mutate r1.2.2
         (fun c => ((c.route "songs/:id").toOption).getD c)).getCfg r2.2.2).routeOwn
       = none) :=
  ⟨by decide, rfl⟩

/-- C2 amended: `endpoint(name)` always allocates a fresh `ApiEndpointConfig`
and overwrites the registry entry under `name` with the new handle; handles
returned by successive calls with the same name are distinct, the registry
keeps only the last one, the later config is a fresh default one, and a
mutation performed through the earlier handle is never visible through the
later one. -/
theorem endpoint_allocates_fresh_config (reg : ApiProvider) (h : ConfigHeap)
    (name : String) (f : ApiEndpointConfig → ApiEndpointConfig) :
    (let r1 := reg.endpoint h name
     let r2 := r1.1.endpoint r1.2.1 name
     r1.2.2 ≠ r2.2.2 ∧
     lookupAssoc r2.1.endpoints name = some r2.2.2 ∧
     r2.2.1.getCfg r2.2.2 = newApiEndpointConfig ∧
     (r2.2.1.mutate r1.2.2 f).getCfg r2.2.2 = r2.2.1.getCfg r2.2.2) := by
  refine ⟨?_, ?_, ?_, ?_⟩
  · simp only [ApiProvider.endpoint, List.length_append, List.length_cons, List.length_nil]
    omega
  · simp only [ApiProvider.endpoint]
    exact lookupAssoc_setAssoc_self _ name _
  · simp only [ApiProvider.endpoint, ConfigHeap.getCfg, List.length_append,
      List.length_cons, List.length_nil]
    rw [show h.configs.length + (0 + 1) = (h.configs ++ [newApiEndpointConfig]).length by
      simp]
    rw [listGet_append_self (h.configs ++ [newApiEndpointConfig]) newApiEndpointConfig]
    rfl
  · simp only [ApiProvider.endpoint, ConfigHeap.mutate, ConfigHeap.getCfg,
      List.length_append, List.length_cons, List.length_nil]
    rw [listGet_set_ne]
    omega

/-- C3 counterexample: a second `route(template)` call does not perform a
last-write-wins update; it throws a TypeError, because the first call stored
the template string under the property name that the prototype method
occupied. -/
theorem route_twice_type_error_cex :
    (newApiEndpointConfig.route "songs/:id").bind (fun c => c.route "albums/:id")
      = .error .typeError := rfl

/-- C3 amended: on a config whose `route` and `model` own properties are still
unset, the FIRST `route(template)` call stores the template and returns the
config for chaining, and the FIRST `model(factory)` call does likewise; any
second call of either builder throws a TypeError because the stored value now
shadows the prototype method — re-setting is impossible, not
last-write-wins. -/
theorem route_model_single_set (c : ApiEndpointConfig) (r r' : String)
    (m m' : ModelDef) (hr : c.routeOwn = none) (hm : c.modelOwn = none) :
    c.route r = .ok { c with routeOwn := some r } ∧
    (c.route r).bind (fun c2 => c2.route r') = .error .typeError ∧
    c.model m = .ok { c with modelOwn := some m } ∧
    (c.model m).bind (fun c2 => c2.model m') = .error .typeError := by
  refine ⟨?_, ?_, ?_, ?_⟩ <;>
    simp [ApiEndpointConfig.route, ApiEndpointConfig.model, hr, hm, Except.bind]

/-- Witness for the amended C3 theorem at the freshly constructed config. -/
theorem route_model_single_set_witness :
    newApiEndpointConfig.route "songs/:id"
      = .ok { newApiEndpointConfig with routeOwn := some "songs/:id" } ∧
    (newApiEndpointConfig.route "songs/:id").bind (fun c2 => c2.route "albums/:id")
      = .error .typeError ∧
    newApiEndpointConfig.model songModel
      = .ok { newApiEndpointConfig with modelOwn := some songModel } ∧
    (newApiEndpointConfig.model songModel).bind (fun c2 => c2.model bareModel)
      = .error .typeError :=
  route_model_single_set newApiEndpointConfig "songs/:id" "albums/:id"
    songModel bareModel rfl rfl

/-- C4 counterexample: `afterLoad` is NOT presence-checked — instantiating a
model whose instances lack the `afterLoad` member throws a TypeError instead
of skipping the hook and proceeding. -/
theorem afterload_unchecked_cex :
    instantiateModel (some bareModel) (.obj [("id", .num 1)]) = .error .typeError := rfl

/-- C4 amended: only `beforeSave` is presence-checked.  On the write path,
when the payload is absent the hook call is skipped and the request proceeds
with an undefined payload regardless of the hook flag; when the copied payload
lacks `beforeSave` the copy is forwarded unmutated with no failure.  On the
read path `afterLoad` is invoked unconditionally, so instantiation fails with
a TypeError whenever the model instance lacks it. -/
theorem hook_guard_amended (h : Heap) (t : AddrTransport) (action : String)
    (params : Option JsVal) (a : Nat) (b : Bool) (hook : JsObj → JsObj)
    (md : ModelDef) (d : JsVal) (hmd : md.hasAfterLoad = false) :
    saveRequestWithModel h t action params none b hook = (h, t action params none) ∧
    saveRequestWithModel h t action params (some a) false hook
      = ((h.alloc (h.get a)).1, t action params (some (h.alloc (h.get a)).2)) ∧
    (h.alloc (h.get a)).1.get (h.alloc (h.get a)).2 = h.get a ∧
    instantiateModel (some md) d = .error .typeError := by
  refine ⟨rfl, rfl, Heap.get_alloc_new h (h.get a), ?_⟩
  simp [instantiateModel, hmd]

/-- Witness for the amended C4 theorem on a one-cell heap holding `{id: 1}`
and a model without `afterLoad`. -/
theorem hook_guard_amended_witness :
    (let h : Heap := ⟨[[("id", JsVal.num 1)]]⟩
     let t : AddrTransport := fun _ _ d => .resolved (.num (Int.ofNat (d.getD 99)))
     saveRequestWithModel h t "save" none none true (fun o => o)
       = (h, t "save" none none) ∧
     saveRequestWithModel h t "save" none (some 0) false (fun o => o)
       = ((h.alloc (h.get 0)).1, t "save" none (some (h.alloc (h.get 0)).2)) ∧
     (h.alloc (h.get 0)).1.get (h.alloc (h.get 0)).2 = h.get 0 ∧
     instantiateModel (some bareModel) (.obj []) = .error .typeError) :=
  hook_guard_amended ⟨[[("id", JsVal.num 1)]]⟩
    (fun _ _ d => .resolved (.num (Int.ofNat (d.getD 99)))) "save" none 0 true
    (fun o => o) bareModel (.obj []) rfl

/-- C5: the claim says the pending result of a read-with-model action resolves
with the model-wrapped response.  The success callback does transform the
response in place (second conjunct: the data slot of the mutated response is
the model-wrapped payload, and the callback return value is undefined), but
because it returns undefined the chained promise the caller holds resolves
with undefined — the caller observes nothing, contradicting the claim. -/
theorem read_resolves_with_undefined :
    getRequestWithModel sampleReadTransport (some songModel) "get" none
      = .resolved JsVal.undefined ∧
    getResponseCallback (some songModel) (.obj [("data", .obj [("id", .num 5)])])
      = .ok (.obj [("data", .obj [("id", .num 5), ("loaded", .num 1)])], JsVal.undefined) :=
  ⟨rfl, rfl⟩

/-- C6: the write path never mutates the caller's payload: the payload cell at
the caller's address is unchanged after the call, the transport receives a
DIFFERENT address (the fresh copy), and that copy holds the `beforeSave`
mutation of the caller's payload value. -/
theorem save_copies_payload (h : Heap) (t : AddrTransport) (action : String)
    (params : Option JsVal) (a : Nat) (hook : JsObj → JsObj)
    (ha : a < h.cells.length) :
    (let res := saveRequestWithModel h t action params (some a) true hook
     let ca := h.cells.length
     res.1.get a = h.get a ∧
     ca ≠ a ∧
     res.1.get ca = hook (h.get a) ∧
     res.2 = t action params (some ca)) := by
  have hca : (h.alloc (h.get a)).2 = h.cells.length := rfl
  have hnew : (h.alloc (h.get a)).1.get h.cells.length = h.get a :=
    Heap.get_alloc_new h (h.get a)
  refine ⟨?_, ?_, ?_, rfl⟩
  · show ((h.alloc (h.get a)).1.set h.cells.length
        (hook ((h.alloc (h.get a)).1.get h.cells.length))).get a = h.get a
    rw [Heap.get_set_ne _ _ _ _ (Nat.ne_of_gt ha)]
    exact Heap.get_alloc_old h (h.get a) a ha
  · exact Nat.ne_of_gt ha
  · show ((h.alloc (h.get a)).1.set h.cells.length
        (hook ((h.alloc (h.get a)).1.get h.cells.length))).get h.cells.length
      = hook (h.get a)
    rw [hnew]
    exact Heap.get_set_self _ _ _ (by simp [Heap.alloc])

/-- Witness for C6 on a one-cell heap holding `{name: "x"}` with a mutating
`beforeSave`. -/
theorem save_copies_payload_witness :
    (let h : Heap := ⟨[[("name", JsVal.str "x")]]⟩
     let t : AddrTransport := fun _ _ d => .resolved (.num (Int.ofNat (d.getD 99)))
     let hook : JsObj → JsObj := fun o => setAssoc o "mutated" (.num 1)
     let res := saveRequestWithModel h t "save" none (some 0) true hook
     res.1.get 0 = h.get 0 ∧
     h.cells.length ≠ 0 ∧
     res.1.get h.cells.length = hook (h.get 0) ∧
     res.2 = t "save" none (some h.cells.length)) :=
  save_copies_payload ⟨[[("name", JsVal.str "x")]]⟩
    (fun _ _ d => .resolved (.num (Int.ofNat (d.getD 99)))) "save" none 0
    (fun o => setAssoc o "mutated" (.num 1)) (by decide)

/-- C7: on the read path, an array payload is mapped elementwise in original
order through model instantiation — each element yields the factory instance
extended with that element's raw fields and transformed by `afterLoad` exactly
once — and a non-array payload yields exactly one such instance; the third
conjunct places the mapped array into the response's data slot through the
actual response callback. -/
theorem read_maps_elements_through_model (md : ModelDef) (ds : List JsVal)
    (d : JsVal) (hmd : md.hasAfterLoad = true) (hd : isArrayJs d = false) :
    transformData (some md) (.arr ds)
      = .ok (.arr (ds.map (fun x => .obj (md.afterLoad (extendObj md.base (fieldsOf x)))))) ∧
    transformData (some md) d
      = .ok (.obj (md.afterLoad (extendObj md.base (fieldsOf d)))) ∧
    getResponseCallback (some md) (.obj [("data", .arr ds)])
      = .ok (.obj [("data",
          .arr (ds.map (fun x => .obj (md.afterLoad (extendObj md.base (fieldsOf x))))))],
          JsVal.undefined) := by
  have harr : transformData (some md) (.arr ds)
      = .ok (.arr (ds.map (fun x => .obj (md.afterLoad (extendObj md.base (fieldsOf x)))))) := by
    simp [transformData, mapExcept_ok _ _ (instantiateModel_ok md hmd) ds, Except.map]
  refine ⟨harr, ?_, ?_⟩
  · cases d <;> simp_all [transformData, isArrayJs, instantiateModel_ok md hmd, Except.map]
  · simp [getResponseCallback, getField, setField, lookupAssoc, setAssoc, harr]

/-- Witness for C7 with the payloads of the spec: `[{id:1},{id:2}]` and
`{id:5}` under a model whose `afterLoad` marks its receiver. -/
theorem read_maps_elements_through_model_witness :
    transformData (some songModel) (.arr [.obj [("id", .num 1)], .obj [("id", .num 2)]])
      = .ok (.arr ([(JsVal.obj [("id", .num 1)]), (JsVal.obj [("id", .num 2)])].map
          (fun x => .obj (songModel.afterLoad (extendObj songModel.base (fieldsOf x)))))) ∧
    transformData (some songModel) (.obj [("id", .num 5)])
      = .ok (.obj (songModel.afterLoad (extendObj songModel.base
          (fieldsOf (.obj [("id", .num 5)]))))) ∧
    getResponseCallback (some songModel)
        (.obj [("data", .arr [.obj [("id", .num 1)], .obj [("id", .num 2)]])])
      = .ok (.obj [("data",
          .arr ([(JsVal.obj [("id", .num 1)]), (JsVal.obj [("id", .num 2)])].map
            (fun x => .obj (songModel.afterLoad (extendObj songModel.base (fieldsOf x))))))],
          JsVal.undefined) :=
  read_maps_elements_through_model songModel
    [.obj [("id", .num 1)], .obj [("id", .num 2)]] (.obj [("id", .num 5)]) rfl rfl

/-- C8 counterexample: the stored method is NOT always the upper-cased method
argument — an options argument carrying its own `method` entry is extended
over the base object and wins. -/
theorem addHttpAction_options_method_cex :
    (lookupAssoc ((newApiEndpointConfig.addHttpAction "get" "fetch" none
        ⟨some "SPECIAL", none, none, none⟩).actions) "fetch").map ActionSpec.method
      = some "SPECIAL" ∧ "SPECIAL" ≠ toUpperCase "get" :=
  ⟨rfl, by decide⟩

/-- C8 amended: `addHttpAction` inserts or completely overwrites the entry
under `name` — after two calls with the same name only the second ActionSpec
remains, with no merge and no error even on a default-action name — and the
stored method is the upper-cased method argument provided the options do not
themselves carry a `method` entry (an options `method` is extended over the
base and wins). -/
theorem addHttpAction_overwrite (c : ApiEndpointConfig) (m1 n : String)
    (p1 : Option JsVal) (o1 : ActionOptions) (m2 : String) (p2 : Option JsVal)
    (o2 : ActionOptions) (hm : o2.method = none) :
    lookupAssoc (((c.addHttpAction m1 n p1 o1).addHttpAction m2 n p2 o2).actions) n
      = some (extendSpec ⟨toUpperCase m2, p2, false, none⟩ o2) ∧
    (extendSpec ⟨toUpperCase m2, p2, false, none⟩ o2).method = toUpperCase m2 := by
  constructor
  · simp [ApiEndpointConfig.addHttpAction, lookupAssoc_setAssoc_self]
  · simp [extendSpec, hm]

/-- Witness for the amended C8 theorem: overwriting the default `get` action
twice keeps only the second spec, whose method is the upper-cased argument. -/
theorem addHttpAction_overwrite_witness :
    lookupAssoc (((newApiEndpointConfig.addHttpAction "post" "get"
          (some (.obj [("a", .num 1)])) noOptions).addHttpAction "put" "get"
          none noOptions).actions) "get"
      = some (extendSpec ⟨toUpperCase "put", none, false, none⟩ noOptions) ∧
    (extendSpec ⟨toUpperCase "put", none, false, none⟩ noOptions).method = toUpperCase "put" :=
  addHttpAction_overwrite newApiEndpointConfig "post" "get"
    (some (.obj [("a", .num 1)])) noOptions "put" none noOptions rfl

/-- C10: a read-with-model member binds only the params argument — a data
argument supplied by the caller is dropped (the call result is the same
whatever data is passed) and the transport is only ever consulted with an
undefined data slot (two transports agreeing on undefined-data calls give the
same result); a plain-request member forwards params and data to the transport
unchanged. -/
theorem read_callable_drops_data (t t' : Transport) (cfgModel : Option ModelDef)
    (action : String) (params data data' : Option JsVal)
    (hts : t action params none = t' action params none) :
    readActionCallable t cfgModel action params data
      = readActionCallable t cfgModel action params data' ∧
    readActionCallable t cfgModel action params data
      = readActionCallable t' cfgModel action params data ∧
    plainActionCallable t action params data = t action params data := by
  refine ⟨rfl, ?_, rfl⟩
  simp [readActionCallable, getRequestWithModel, request, hts]

/-- Witness for C10: with a concrete transport, passing a data argument to the
read member changes nothing and the plain member forwards both arguments. -/
theorem read_callable_drops_data_witness :
    readActionCallable sampleReadTransport (some songModel) "get" none
        (some (.obj [("x", .num 1)]))
      = readActionCallable sampleReadTransport (some songModel) "get" none none ∧
    readActionCallable sampleReadTransport (some songModel) "get" none
        (some (.obj [("x", .num 1)]))
      = readActionCallable sampleReadTransport (some songModel) "get" none
        (some (.obj [("x", .num 1)])) ∧
    plainActionCallable sampleReadTransport "get" none (some (.obj [("x", .num 1)]))
      = sampleReadTransport "get" none (some (.obj [("x", .num 1)])) :=
  read_callable_drops_data sampleReadTransport sampleReadTransport (some songModel)
    "get" none (some (.obj [("x", .num 1)])) none rfl

end App
